import Mathlib

/-!
Verification of the BenchmarkWatcher front-end against its specification.

The development shallowly embeds the JavaScript modules of the repository:

* `BW.Commodity.filterDataByRange`, `hexWithAlpha` and the percent-change
  series of `updateChart` (commodity detail component);
* `BW.Settings.deepMerge`, `getTableSettings`, `getGridSettings` and the
  `localStorage` wrappers `lsGetItem` / `lsSetItem` (settings module);
* `BW.GridView.updateCards` (grid view component);
* `BW.Utils.calculateMA` (utility module).

JavaScript `Date` values that originate from date-only ISO strings are
modelled as calendar triples (`CalDate`) compared through their civil serial
day number; JavaScript numbers are modelled as exact rationals, except in
`hexWithAlpha` where the observable behaviour depends on IEEE-754 binary64
rounding and a dyadic model (`F64`) is used.
-/

/-- A calendar date as JavaScript exposes it: `getFullYear`, `getMonth`
(0-based) and `getDate`.  Fields may leave their canonical ranges, mirroring
the arguments JavaScript normalises in `setDate` / `setMonth`. -/
structure CalDate where
  year : ℤ
  month : ℤ
  day : ℤ
deriving DecidableEq, Repr

/-- Serial day number of a civil date (`m` is 1-based here), the standard
days-from-civil computation; day 0 is 1970-01-01.  The result is linear in
`d`, so out-of-range days normalise exactly as a JavaScript `Date` does. -/
def daysFromCivil (y m d : ℤ) : ℤ :=
  let y2 := if m ≤ 2 then y - 1 else y
  let era := Int.fdiv y2 400
  let yoe := y2 - era * 400
  let mp := Int.fmod (m + 9) 12
  let doy := Int.fdiv (153 * mp + 2) 5 + (d - 1)
  let doe := yoe * 365 + Int.fdiv yoe 4 - Int.fdiv yoe 100 + doy
  era * 146097 + doe - 719468

/-- Timestamp (in days) of a `CalDate`: the month is first normalised into
the year exactly as JavaScript `Date` normalises `setMonth` arguments, then
the civil serial number is taken.  Comparing two date-only `Date` values in
JavaScript compares these serials. -/
def toSerial (dt : CalDate) : ℤ :=
  daysFromCivil (dt.year + Int.fdiv dt.month 12) (Int.fmod dt.month 12 + 1) dt.day

/-- One element of a commodity history series: a `{date, price}` record. -/
structure PricePoint where
  date : CalDate
  price : ℚ
deriving DecidableEq, Repr

/-- The cutoff date computed by the `switch` of
`BW.Commodity.filterDataByRange` (src/unnamed/part_000 lines 174-183):
`cutoffDate` starts as a copy of the latest data date and is moved back by
`setDate` / `setMonth` / `setFullYear`; an unrecognised token leaves it at
the latest date. -/
def rangeCutoff (latest : CalDate) (range : String) : ℤ :=
  if range = "1W" then toSerial { latest with day := latest.day - 7 }
  else if range = "1M" then toSerial { latest with month := latest.month - 1 }
  else if range = "3M" then toSerial { latest with month := latest.month - 3 }
  else if range = "6M" then toSerial { latest with month := latest.month - 6 }
  else if range = "1Y" then toSerial { latest with year := latest.year - 1 }
  else toSerial latest

/-- `BW.Commodity.filterDataByRange` (src/unnamed/part_000 lines 169-186)
on a non-null series.  `'ALL'` and the empty series return the input
unchanged; otherwise the series is filtered (`Array.prototype.filter`
allocates a fresh array, embedded as `List.filter`) keeping the items whose
date is at or after the cutoff anchored to the last element's date. -/
def filterDataByRangeList (data : List PricePoint) (range : String) :
    List PricePoint :=
  if range = "ALL" ∨ data = [] then data
  else
    match data.getLast? with
    | none => data
    | some lastPt =>
        data.filter (fun it => rangeCutoff lastPt.date range ≤ toSerial it.date)

/-- `filterDataByRange` including the null-series case: `!data` makes the
function return the input (null) unchanged. -/
def filterDataByRange (data : Option (List PricePoint)) (range : String) :
    Option (List PricePoint) :=
  match data with
  | none => none
  | some l => some (filterDataByRangeList l range)

/-- The series is ascending by date (the documented invariant on history
data). -/
def sortedByDate (data : List PricePoint) : Prop :=
  data.Chain' (fun a b => toSerial a.date ≤ toSerial b.date)

/-- A JSON value as produced by `JSON.parse`: the values stored in and read
back from browser storage by `BW.Settings`. -/
inductive JVal where
  | null : JVal
  | bool : Bool → JVal
  | num : ℚ → JVal
  | str : String → JVal
  | arr : List JVal → JVal
  | obj : List (String × JVal) → JVal

/-- JavaScript truthiness test (`!v` negated) on a JSON value.  `JSON.parse`
never yields `undefined` or `NaN`, so those falsy values need no case. -/
def jsFalsy : JVal → Bool
  | .null => true
  | .bool b => !b
  | .num q => decide (q = 0)
  | .str s => decide (s = "")
  | .arr _ => false
  | .obj _ => false

/-- `BW.Settings.isPlainObject` (src/unnamed/part_003 lines 51-53):
`v && typeof v === 'object' && !Array.isArray(v)`. -/
def isPlainObject : JVal → Bool
  | .obj _ => true
  | _ => false

/-- Property lookup on a JavaScript object modelled as a key/value list
(keys unique, insertion order kept). -/
def lookupKey {α : Type} : List (String × α) → String → Option α
  | [], _ => none
  | (k2, v) :: rest, k => if k2 = k then some v else lookupKey rest k

/-- Property assignment `out[key] = v`: an existing key keeps its position,
a new key is appended, as in a JavaScript object. -/
def setKey {α : Type} : List (String × α) → String → α → List (String × α)
  | [], k, v => [(k, v)]
  | (k2, v2) :: rest, k, v =>
      if k2 = k then (k2, v) :: rest else (k2, v2) :: setKey rest k v

/-- The `Object.keys(source).forEach` loop of `BW.Settings.deepMerge`
(src/unnamed/part_003 lines 39-47): for each source key, when
`isPlainObject(srcVal) && isPlainObject(tgtVal)` holds the merged child is
assigned, otherwise the source value wins.  The conjunction is spelt as a
nested case split on the two values. -/
def mergeKV (out : List (String × JVal)) : List (String × JVal) →
    List (String × JVal)
  | [] => out
  | (k, JVal.obj skvs) :: rest =>
      (match lookupKey out k with
       | some (JVal.obj tkvs) =>
           mergeKV (setKey out k (JVal.obj (mergeKV tkvs skvs))) rest
       | _ => mergeKV (setKey out k (JVal.obj skvs)) rest)
  | (k, sv) :: rest => mergeKV (setKey out k sv) rest
termination_by src => sizeOf src
decreasing_by all_goals simp_wf <;> omega

/-- The enumerable own keys of a source value with their values, as
`Object.keys` sees them: objects give their entries, arrays and strings
their index keys, primitives none. -/
def sourceKeys : JVal → List (String × JVal)
  | .obj kvs => kvs
  | .arr xs => xs.enum.map (fun p => (toString p.1, p.2))
  | .str s => s.data.enum.map (fun p => (toString p.1, JVal.str (String.mk [p.2])))
  | _ => []

/-- `BW.Settings.deepMerge` (src/unnamed/part_003 lines 36-49).  Every call
in the repository has a plain object as target (`TABLE_DEFAULTS`, or a
nested value guarded by `isPlainObject`), so the target is a key/value
list; the `Array.isArray(target)` branch is unreachable.  A falsy source
returns `JSON.parse(JSON.stringify(target))`, which is value-identical to
the target for JSON data. -/
def deepMerge (target : List (String × JVal)) (source : JVal) :
    List (String × JVal) :=
  if jsFalsy source then target
  else mergeKV target (sourceKeys source)

/-- `BW.Settings.TABLE_DEFAULTS` (src/unnamed/part_003 lines 108-125). -/
def TABLE_DEFAULTS : List (String × JVal) :=
  [("dataRange", .str "ALL"),
   ("panelOpen", .bool false),
   ("columns", .obj
     [("commodity", .bool true), ("trend", .bool true), ("price", .bool true),
      ("chg", .bool true), ("pct", .bool true), ("updated", .bool true)]),
   ("commodity", .obj [("display", .str "full"), ("icon", .str "initials")]),
   ("trend", .obj
     [("type", .str "area"), ("points", .str "30"),
      ("showMA", .bool false), ("showHighLow", .bool false)]),
   ("price", .obj
     [("format", .str "default"), ("currency", .str "below"),
      ("precision", .str "2")]),
   ("chg", .obj [("format", .str "arrow"), ("color", .str "colored")]),
   ("pct", .obj [("style", .str "badge"), ("decimals", .str "2")]),
   ("updated", .obj [("format", .str "iso"), ("time", .str "no")])]

/-- `BW.Settings.getTableSettings` (src/unnamed/part_003 lines 162-166).
The argument is the result of `safeParse` on the stored raw string: `none`
models a missing entry or a parse failure, `some v` a parsed JSON value.
`!parsed` also rejects falsy parsed values; deep copies are value-identical
in this model. -/
def getTableSettings (parsed : Option JVal) : JVal :=
  match parsed with
  | none => .obj TABLE_DEFAULTS
  | some v => if jsFalsy v then .obj TABLE_DEFAULTS
              else .obj (deepMerge TABLE_DEFAULTS v)

/-- The fallback shape `{ dataRange: 'ALL' }` of
`BW.Settings.getGridSettings`. -/
def gridFallback : List (String × JVal) := [("dataRange", .str "ALL")]

/-- `BW.Settings.getGridSettings` (src/unnamed/part_003 lines 178-182):
a falsy or missing parsed value yields the fallback shape, otherwise the
parsed value is returned as is, without any merge with defaults. -/
def getGridSettings (parsed : Option JVal) : JVal :=
  match parsed with
  | none => .obj gridFallback
  | some v => if jsFalsy v then .obj gridFallback else v

/-- State of the browser storage layer seen by `BW.Settings`:
whether `localStorage` exists, whether its `setItem` throws (quota), the
persisted entries, and the in-process fallback `_memoryStore`. -/
structure Storage where
  lsAvailable : Bool
  setThrows : Bool
  ls : List (String × String)
  mem : List (String × String)
deriving DecidableEq, Repr

/-- The `try` body of `BW.Settings.lsGetItem` (src/unnamed/part_003 lines
56-64): throws when `localStorage` is undefined, otherwise reads the
persisted entry (`getItem` gives null for a missing key). -/
def lsGetItemRaw (st : Storage) (k : String) : Except String (Option String) :=
  if st.lsAvailable = false then Except.error "localStorage undefined"
  else Except.ok (lookupKey st.ls k)

/-- `BW.Settings.lsGetItem`: the `catch` falls back to
`_memoryStore[key] ?? null`. -/
def lsGetItem (st : Storage) (k : String) : Option String :=
  match lsGetItemRaw st k with
  | Except.ok v => v
  | Except.error _ => lookupKey st.mem k

/-- The `try` body of `BW.Settings.lsSetItem` (src/unnamed/part_003 lines
66-74): throws when `localStorage` is undefined or `setItem` itself throws
(quota exceeded), otherwise persists the entry. -/
def lsSetItemRaw (st : Storage) (k v : String) : Except String Storage :=
  if st.lsAvailable = false then Except.error "localStorage undefined"
  else if st.setThrows then Except.error "quota exceeded"
  else Except.ok { st with ls := setKey st.ls k v }

/-- `BW.Settings.lsSetItem`: the `catch` writes the in-memory store instead
and returns normally, so the wrapper is total. -/
def lsSetItem (st : Storage) (k v : String) : Storage :=
  match lsSetItemRaw st k v with
  | Except.ok st2 => st2
  | Except.error _ => { st with mem := setKey st.mem k v }

/-- A commodity record as the grid card renderer consumes it.  `id = none`
models a missing or null id, `price = none` a null or undefined price (the
`== null` loose test of the source). -/
structure Commodity where
  id : Option String
  price : Option ℚ
  name : String
  category : String
  change : Option ℚ
  change_percent : Option ℚ
deriving DecidableEq, Repr

/-- JavaScript falsiness of `commodity.id`: absent, null or the empty
string. -/
def idFalsy : Option String → Bool
  | none => true
  | some s => decide (s = "")

/-- The defensive guard of `BW.GridView.updateCards` (src/unnamed/part_001
lines 368-375): `!commodity || !commodity.id || commodity.price == null`.
A falsy list element (null record) is modelled as `none`. -/
def isMalformedRecord : Option Commodity → Bool
  | none => true
  | some c => idFalsy c.id || c.price.isNone

/-- The records the grid renders: every record that passes the malformed
guard, in input order. -/
def renderedCards (cs : List (Option Commodity)) : List Commodity :=
  cs.filterMap (fun c =>
    match c with
    | none => none
    | some cc => if isMalformedRecord (some cc) then none else some cc)

/-- The card-building `forEach` of `BW.GridView.updateCards`
(src/unnamed/part_001 lines 368-375 and onwards): malformed records are
skipped with an early `return` — warning on the console only when
`window.BW_ENV === 'dev'` — and every other record gets a card.  Returns
the rendered records and the warned-about records, both in input order. -/
def updateCards (devMode : Bool) :
    List (Option Commodity) → List Commodity × List (Option Commodity)
  | [] => ([], [])
  | c :: rest =>
      let done := updateCards devMode rest
      match c with
      | none => (done.1, if devMode then none :: done.2 else done.2)
      | some cc =>
          if idFalsy cc.id || cc.price.isNone then
            (done.1, if devMode then some cc :: done.2 else done.2)
          else
            (cc :: done.1, done.2)

/-- `BW.Utils.calculateMA` (src/unnamed/part_002 lines 142-178).  The input
list models the data after `toNumber`: `some q` is a finite number, `none`
is `NaN` (a non-numeric entry).  The loop carries `windowSum` and
`validCount` exactly as the source does, including the
`validCount = Math.max(0, validCount - 1)` branch of the sliding phase. -/
def calculateMA (data : List (Option ℚ)) (period : ℤ) : List (Option ℚ) :=
  if data.length = 0 ∨ period ≤ 0 then []
  else
    let step := fun (acc : ℚ × ℤ × List (Option ℚ)) (i : ℕ) =>
      let ws := acc.1
      let vc := acc.2.1
      let out := acc.2.2
      let val := (data.get? i).join
      if (i : ℤ) < period then
        let ws2 := match val with | some v => ws + v | none => ws
        let vc2 := match val with | some _ => vc + 1 | none => vc
        let entry :=
          if (i : ℤ) = period - 1 then
            (if vc2 = period then some (ws2 / (period : ℚ)) else none)
          else none
        (ws2, vc2, out ++ [entry])
      else
        let prev := (data.get? (i - period.toNat)).join
        let ws2 := match prev with | some p => ws - p | none => ws
        let vc2 := match prev with | some _ => vc | none => max 0 (vc - 1)
        let ws3 := match val with | some v => ws2 + v | none => ws2
        let vc3 := match val with | some _ => vc2 + 1 | none => vc2
        (ws3, vc3, out ++ [if vc3 = period then some (ws3 / (period : ℚ)) else none])
    ((List.range data.length).foldl step (0, 0, [])).2.2

/-- A JavaScript division whose result is kept only when finite: `0 / 0` is
`NaN` and `x / 0` is `±Infinity`, both modelled as `none`. -/
def jsDivFin (a b : ℚ) : Option ℚ := if b = 0 then none else some (a / b)

/-- The percent-change series of `BW.Commodity.updateChart`
(src/unnamed/part_000 lines 232-234): `basePrice` is the first price (1 for
an empty series) and each price maps to `((p - basePrice) / basePrice) * 100`.
The first element subtracts the base from itself exactly, so no binary64
rounding enters any value this development states facts about. -/
def percentSeries (prices : List ℚ) : List (Option ℚ) :=
  let basePrice := prices.headD 1
  prices.map (fun p => (jsDivFin (p - basePrice) basePrice).map (fun q => q * 100))

/-- A nonnegative finite IEEE-754 binary64 value, as the dyadic rational
`sig / 2 ^ exp`.  JavaScript numbers are binary64, and the output of
`hexWithAlpha` depends on binary64 rounding (`50 * 2.55` is slightly below
`127.5`), so this corner of the embedding tracks the rounding exactly. -/
structure F64 where
  sig : ℕ
  exp : ℕ
deriving DecidableEq, Repr

/-- Floor of the base-2 logarithm, by fuelled structural recursion so that
it reduces inside the kernel; exact for positive arguments below `2 ^ 128`. -/
def natLog2F : ℕ → ℕ → ℕ
  | 0, _ => 0
  | fuel + 1, n => if n ≤ 1 then 0 else natLog2F fuel (n / 2) + 1

/-- `natLog2 n` is the floor of `log2 n` for `0 < n < 2 ^ 128`. -/
def natLog2 (n : ℕ) : ℕ := natLog2F 128 n

/-- Round `N / D` (for `D > 0`) to the nearest integer, ties to even: the
IEEE-754 default rounding applied at integer granularity. -/
def rndHalfEven (N D : ℕ) : ℕ :=
  let q := N / D
  let r := N % D
  if 2 * r < D then q
  else if 2 * r > D then q + 1
  else if q % 2 = 0 then q else q + 1

/-- Round the dyadic value `sig / 2 ^ exp` to binary64: keep at most 53
significand bits and never resolve below the subnormal grid `2 ^ (-1074)`. -/
def f64Norm (sig exp : ℕ) : F64 :=
  let L := if sig = 0 then 0 else natLog2 sig + 1
  let s := max (L - 53) (exp - 1074)
  if s = 0 then ⟨sig, exp⟩
  else ⟨rndHalfEven sig (2 ^ s), exp - s⟩

/-- Binary64 multiplication of nonnegative values: exact product, then one
rounding. -/
def f64Mul (a b : F64) : F64 := f64Norm (a.sig * b.sig) (a.exp + b.exp)

/-- Comparison of binary64 values (cross multiplication of the dyadics). -/
def f64Le (a b : F64) : Bool := Nat.ble (a.sig * 2 ^ b.exp) (b.sig * 2 ^ a.exp)

/-- `Math.min` on nonnegative binary64 values. -/
def f64Min (a b : F64) : F64 := if f64Le a b then a else b

/-- `Math.max` on nonnegative binary64 values. -/
def f64Max (a b : F64) : F64 := if f64Le a b then b else a

/-- A small natural as a binary64 value (exact below `2 ^ 53`). -/
def f64OfNat (n : ℕ) : F64 := f64Norm n 0

/-- The binary64 value of a positive decimal literal `num / den`, for
literals in the normal range: locate the leading bit, then round the
significand once, half to even. -/
def f64OfRatPos (num den : ℕ) : F64 :=
  let a : ℤ := natLog2 num
  let b : ℤ := natLog2 den
  let c := a - b
  let e :=
    if 0 ≤ c then (if den * 2 ^ c.toNat ≤ num then c else c - 1)
    else (if den ≤ num * 2 ^ (-c).toNat then c else c - 1)
  let t := 52 - e
  if 0 ≤ t then ⟨rndHalfEven (num * 2 ^ t.toNat) den, t.toNat⟩
  else ⟨rndHalfEven num (den * 2 ^ (-t).toNat) * 2 ^ (-t).toNat, 0⟩

/-- The runtime value of the literal `2.55` in the source of
`hexWithAlpha`: the binary64 nearest to 51/20. -/
def jsTwoFiftyFive : F64 := f64OfRatPos 51 20

/-- `Math.round` on a nonnegative binary64 value: the closest integer,
half away from zero — `⌊x + 1/2⌋` computed on the exact dyadic. -/
def f64Round (x : F64) : ℕ := (2 * x.sig + 2 ^ x.exp) / 2 ^ (x.exp + 1)

/-- `hex.replace('#', '')`: `String.prototype.replace` with a string
pattern replaces only the first occurrence. -/
def removeFirstChar (c : Char) : List Char → List Char
  | [] => []
  | x :: xs => if x = c then xs else x :: removeFirstChar c xs

/-- `s.replace('#', '')` on the character list of `s`. -/
def jsReplaceFirstHash (s : String) : String := String.mk (removeFirstChar '#' s.data)

/-- The character set `String.prototype.trim` strips: the ECMA-262
WhiteSpace production (TAB, VT, FF, SP, NBSP, ZWNBSP and the Unicode
space-separator category Zs) together with the LineTerminator production
(LF, CR, LS, PS). -/
def isJsSpace (c : Char) : Bool :=
  let n := c.toNat
  n = 0x09 || n = 0x0a || n = 0x0b || n = 0x0c || n = 0x0d || n = 0x20 ||
  n = 0xa0 || n = 0x1680 || (0x2000 ≤ n && n ≤ 0x200a) ||
  n = 0x2028 || n = 0x2029 || n = 0x202f || n = 0x205f || n = 0x3000 ||
  n = 0xfeff

/-- `String.prototype.trim`: strip the ECMA-262 whitespace and line
terminators from both ends. -/
def jsTrim (s : String) : String :=
  String.mk (((s.data.dropWhile isJsSpace).reverse.dropWhile isJsSpace).reverse)

/-- One character of the class `[0-9a-fA-F]`. -/
def isHexDigitChar (c : Char) : Bool :=
  (decide ('0' ≤ c) && decide (c ≤ '9')) ||
  (decide ('a' ≤ c) && decide (c ≤ 'f')) ||
  (decide ('A' ≤ c) && decide (c ≤ 'F'))

/-- The test `/^[0-9a-fA-F]{6}$/.test(h)` of `hexWithAlpha`. -/
def isHex6 (s : String) : Bool :=
  decide (s.data.length = 6) && s.data.all isHexDigitChar

/-- A hex digit as `Number.prototype.toString(16)` prints it (lowercase). -/
def hexDigitChar (n : ℕ) : Char :=
  if n < 10 then Char.ofNat (48 + n) else Char.ofNat (87 + n)

/-- `a.toString(16)` for `a` between 0 and 255: one or two hex digits. -/
def natToHexStr (n : ℕ) : String :=
  if n < 16 then String.mk [hexDigitChar n]
  else String.mk [hexDigitChar (n / 16), hexDigitChar (n % 16)]

/-- `ahex.padStart(2, '0')`. -/
def padStart2 (s : String) : String :=
  if s.data.length < 2 then "0" ++ s else s

/-- `BW.Commodity.hexWithAlpha` (src/unnamed/part_000 lines 74-83).  A null
argument is `none`; the empty string is also falsy and returns null.  The
alpha percentage is a nonnegative finite binary64 (a negative argument
would be clamped to 0 by `Math.max` anyway); the clamp, the multiplication
by the literal `2.55` and `Math.round` follow binary64 semantics. -/
def hexWithAlpha (hex : Option String) (alphaPercent : F64) : Option String :=
  match hex with
  | none => none
  | some hx =>
      if hx = "" then none
      else
        let h := jsTrim (jsReplaceFirstHash hx)
        if !isHex6 h then some hx
        else
          let a := f64Round (f64Mul (f64Max (f64OfNat 0) (f64Min (f64OfNat 100) alphaPercent)) jsTwoFiftyFive)
          some ("#" ++ h ++ padStart2 (natToHexStr a))

theorem lookupKey_setKey {α : Type} (l : List (String × α)) (k : String) (v : α) :
    lookupKey (setKey l k v) k = some v := by
  induction l with
  | nil => simp [setKey, lookupKey]
  | cons kv rest ih =>
      obtain ⟨k2, v2⟩ := kv
      by_cases h : k2 = k <;> simp [setKey, lookupKey, h, ih]

theorem lookupKey_setKey_ne {α : Type} (l : List (String × α)) (kSet kGet : String)
    (v : α) (h : kGet ≠ kSet) :
    lookupKey (setKey l kSet v) kGet = lookupKey l kGet := by
  have h2 : ¬ kSet = kGet := fun hh => h hh.symm
  induction l with
  | nil => simp [setKey, lookupKey, h2]
  | cons kv rest ih =>
      obtain ⟨k2, v2⟩ := kv
      by_cases hk : k2 = kSet
      · subst hk
        simp [setKey, lookupKey, h2]
      · simp [setKey, lookupKey, hk, ih]

theorem mergeKV_cons (out : List (String × JVal)) (k : String) (sv : JVal)
    (rest : List (String × JVal)) :
    ∃ nv, mergeKV out ((k, sv) :: rest) = mergeKV (setKey out k nv) rest := by
  cases sv with
  | null => exact ⟨JVal.null, by simp [mergeKV]⟩
  | bool b => exact ⟨JVal.bool b, by simp [mergeKV]⟩
  | num q => exact ⟨JVal.num q, by simp [mergeKV]⟩
  | str s => exact ⟨JVal.str s, by simp [mergeKV]⟩
  | arr xs => exact ⟨JVal.arr xs, by simp [mergeKV]⟩
  | obj skvs =>
      rcases hlk : lookupKey out k with _ | tv
      · exact ⟨JVal.obj skvs, by simp [mergeKV, hlk]⟩
      · cases tv with
        | null => exact ⟨JVal.obj skvs, by simp [mergeKV, hlk]⟩
        | bool b => exact ⟨JVal.obj skvs, by simp [mergeKV, hlk]⟩
        | num q => exact ⟨JVal.obj skvs, by simp [mergeKV, hlk]⟩
        | str s => exact ⟨JVal.obj skvs, by simp [mergeKV, hlk]⟩
        | arr xs => exact ⟨JVal.obj skvs, by simp [mergeKV, hlk]⟩
        | obj tkvs => exact ⟨JVal.obj (mergeKV tkvs skvs), by simp [mergeKV, hlk]⟩

theorem lookupKey_mergeKV_of_none (o : List (String × JVal)) :
    ∀ (d : List (String × JVal)) (k : String), lookupKey o k = none →
      lookupKey (mergeKV d o) k = lookupKey d k := by
  induction o with
  | nil => intro d k _h; simp [mergeKV]
  | cons kv rest ih =>
      obtain ⟨k1, sv⟩ := kv
      intro d k hk
      simp only [lookupKey] at hk
      by_cases h : k1 = k
      · simp [h] at hk
      · simp only [if_neg h] at hk
        obtain ⟨nv, hnv⟩ := mergeKV_cons d k1 sv rest
        rw [hnv, ih _ k hk, lookupKey_setKey_ne _ _ _ _ (fun hh => h hh.symm)]

theorem lookupKey_mergeKV_isSome (o : List (String × JVal)) :
    ∀ (d : List (String × JVal)) (k : String), (lookupKey d k).isSome →
      (lookupKey (mergeKV d o) k).isSome := by
  induction o with
  | nil => intro d k h; simpa [mergeKV] using h
  | cons kv rest ih =>
      obtain ⟨k1, sv⟩ := kv
      intro d k h
      obtain ⟨nv, hnv⟩ := mergeKV_cons d k1 sv rest
      rw [hnv]
      apply ih
      by_cases hk : k1 = k
      · subst hk
        rw [lookupKey_setKey]
        rfl
      · rw [lookupKey_setKey_ne _ _ _ _ (fun hh => hk hh.symm)]
        exact h

theorem lookupKey_eq_none_of_not_mem {α : Type} (l : List (String × α)) (k : String)
    (h : k ∉ l.map Prod.fst) : lookupKey l k = none := by
  induction l with
  | nil => simp [lookupKey]
  | cons kv rest ih =>
      obtain ⟨k1, v1⟩ := kv
      simp only [List.map_cons, List.mem_cons, not_or] at h
      have h1 : ¬ k1 = k := fun hh => h.1 hh.symm
      simp [lookupKey, h1, ih h.2]

theorem lookupKey_mergeKV_nested (o : List (String × JVal)) :
    ∀ (d : List (String × JVal)) (c : String) (dsub osub : List (String × JVal)),
      (o.map Prod.fst).Nodup →
      lookupKey d c = some (JVal.obj dsub) →
      lookupKey o c = some (JVal.obj osub) →
      lookupKey (mergeKV d o) c = some (JVal.obj (mergeKV dsub osub)) := by
  induction o with
  | nil => intro d c dsub osub _ _ ho; simp [lookupKey] at ho
  | cons kv rest ih =>
      obtain ⟨k1, sv⟩ := kv
      intro d c dsub osub hnd hd ho
      simp only [List.map_cons, List.nodup_cons] at hnd
      obtain ⟨hk1, hndr⟩ := hnd
      simp only [lookupKey] at ho
      by_cases h : k1 = c
      · subst h
        rw [if_pos rfl] at ho
        obtain rfl : sv = JVal.obj osub := Option.some.inj ho
        rw [show mergeKV d ((k1, JVal.obj osub) :: rest) =
              mergeKV (setKey d k1 (JVal.obj (mergeKV dsub osub))) rest from
            by simp [mergeKV, hd]]
        rw [lookupKey_mergeKV_of_none rest _ k1
          (lookupKey_eq_none_of_not_mem rest k1 hk1)]
        rw [lookupKey_setKey]
      · rw [if_neg h] at ho
        obtain ⟨nv, hnv⟩ := mergeKV_cons d k1 sv rest
        rw [hnv]
        apply ih _ c dsub osub hndr _ ho
        rw [lookupKey_setKey_ne _ _ _ _ (fun hh => h hh.symm)]
        exact hd

/-- Claim C1: for a date-ascending series and a recognised range token,
every element that `filterDataByRange` returns has a date at or after the
cutoff obtained from the last element's date by subtracting the calendar
offset of the token (7 days for 1W, 1/3/6 months for 1M/3M/6M, 1 year for
1Y) — `rangeCutoff` is exactly that subtraction, performed with the
calendar normalisation of JavaScript `Date`. -/
theorem C1_filter_respects_cutoff (S : List PricePoint) (R : String)
    (_hsorted : sortedByDate S)
    (hR : R = "1W" ∨ R = "1M" ∨ R = "3M" ∨ R = "6M" ∨ R = "1Y")
    (lastPt : PricePoint) (hlast : S.getLast? = some lastPt)
    (x : PricePoint) (hx : x ∈ filterDataByRangeList S R) :
    rangeCutoff lastPt.date R ≤ toSerial x.date := by
  have hne : S ≠ [] := by
    intro h
    rw [h] at hlast
    simp at hlast
  have hAll : R ≠ "ALL" := by
    rcases hR with rfl | rfl | rfl | rfl | rfl <;> decide
  unfold filterDataByRangeList at hx
  rw [if_neg (by simp [hAll, hne])] at hx
  rw [hlast] at hx
  simp only [List.mem_filter] at hx
  exact of_decide_eq_true hx.2

/-- Claim C1, witness: a concrete two-point series filtered by 1M. -/
theorem C1_witness :
    sortedByDate [⟨⟨2024, 0, 1⟩, 10⟩, ⟨⟨2024, 1, 1⟩, 11⟩] ∧
    rangeCutoff ⟨2024, 1, 1⟩ "1M" ≤ toSerial ⟨2024, 1, 1⟩ :=
  ⟨by unfold sortedByDate; simp only [List.chain'_cons, List.chain'_singleton, and_true]; decide,
   C1_filter_respects_cutoff [⟨⟨2024, 0, 1⟩, 10⟩, ⟨⟨2024, 1, 1⟩, 11⟩] "1M"
     (by unfold sortedByDate; simp only [List.chain'_cons, List.chain'_singleton, and_true]; decide)
     (Or.inr (Or.inl rfl)) ⟨⟨2024, 1, 1⟩, 11⟩ (by decide)
     ⟨⟨2024, 1, 1⟩, 11⟩ (by decide)⟩

/-- Claim C2: `filterDataByRange(S, 'ALL')` is the identity, a null or
empty series is returned unchanged, and no range ever mutates the source:
the embedding of `Array.prototype.filter` returns a fresh sublist and the
input list is untouched, so the result is always a sublist of the intact
source. -/
theorem C2_all_identity_no_mutation :
    ∀ (S : List PricePoint) (r : String),
      filterDataByRangeList S "ALL" = S ∧
      filterDataByRange none r = none ∧
      filterDataByRangeList [] r = [] ∧
      (filterDataByRangeList S r).Sublist S := by
  intro S r
  refine ⟨by simp [filterDataByRangeList], rfl, by simp [filterDataByRangeList], ?_⟩
  unfold filterDataByRangeList
  split
  · exact List.Sublist.refl S
  · split
    · exact List.Sublist.refl S
    · exact List.filter_sublist S

/-- Claim C3, counterexample: with defaults `{c: {x: 1}}` and override
`{c: 5}` the merge replaces the whole child, so the nested key `x`,
present only in the defaults, is dropped — the merged object is exactly
`{c: 5}`.  This refutes the clause that nested default keys survive
whenever the override assigns any value to the enclosing key. -/
theorem C3_counterexample :
    lookupKey [("c", JVal.obj [("x", JVal.num 1)])] "c" =
      some (JVal.obj [("x", JVal.num 1)]) ∧
    deepMerge [("c", JVal.obj [("x", JVal.num 1)])] (JVal.obj [("c", JVal.num 5)]) =
      [("c", JVal.num 5)] := by
  constructor
  · rfl
  · simp [deepMerge, jsFalsy, sourceKeys, mergeKV, setKey, lookupKey]

/-- Claim C3, amended: `deepMerge(defaults, \x7b\x7d)` equals the defaults;
a key the override does not touch keeps its default value; no top-level
default key is ever dropped; and a key nested inside a child object of the
defaults survives when the override assigns a plain object (not a scalar,
array or null) to the enclosing key. -/
theorem C3_deepMerge_amended :
    ∀ (d o : List (String × JVal)),
      deepMerge d (JVal.obj []) = d ∧
      (∀ k, lookupKey o k = none →
        lookupKey (deepMerge d (JVal.obj o)) k = lookupKey d k) ∧
      (∀ k, (lookupKey d k).isSome →
        (lookupKey (deepMerge d (JVal.obj o)) k).isSome) ∧
      (∀ c x dsub osub, (o.map Prod.fst).Nodup →
        lookupKey d c = some (JVal.obj dsub) →
        lookupKey o c = some (JVal.obj osub) →
        (lookupKey dsub x).isSome →
        ∃ msub, lookupKey (deepMerge d (JVal.obj o)) c = some (JVal.obj msub) ∧
          (lookupKey msub x).isSome) := by
  intro d o
  have hunf : deepMerge d (JVal.obj o) = mergeKV d o := by
    simp [deepMerge, jsFalsy, sourceKeys]
  refine ⟨by simp [deepMerge, jsFalsy, sourceKeys, mergeKV], ?_, ?_, ?_⟩
  · intro k hk
    rw [hunf]
    exact lookupKey_mergeKV_of_none o d k hk
  · intro k hk
    rw [hunf]
    exact lookupKey_mergeKV_isSome o d k hk
  · intro c x dsub osub hnd hd ho hx
    rw [hunf]
    exact ⟨mergeKV dsub osub, lookupKey_mergeKV_nested o d c dsub osub hnd hd ho,
      lookupKey_mergeKV_isSome osub dsub x hx⟩

/-- Claim C3, witness: concrete defaults and override exercising the
untouched-key clause and the nested-preservation clause. -/
theorem C3_witness :
    (lookupKey [("a", JVal.num 9), ("c", JVal.obj [("y", JVal.num 7)])] "b" = none ∧
     lookupKey
       (deepMerge
         [("a", JVal.num 1), ("b", JVal.num 2),
          ("c", JVal.obj [("x", JVal.num 1), ("y", JVal.num 2)])]
         (JVal.obj [("a", JVal.num 9), ("c", JVal.obj [("y", JVal.num 7)])])) "b" =
       lookupKey
         [("a", JVal.num 1), ("b", JVal.num 2),
          ("c", JVal.obj [("x", JVal.num 1), ("y", JVal.num 2)])] "b") ∧
    (∃ msub,
      lookupKey
        (deepMerge
          [("a", JVal.num 1), ("b", JVal.num 2),
           ("c", JVal.obj [("x", JVal.num 1), ("y", JVal.num 2)])]
          (JVal.obj [("a", JVal.num 9), ("c", JVal.obj [("y", JVal.num 7)])])) "c" =
        some (JVal.obj msub) ∧ (lookupKey msub "x").isSome) :=
  ⟨⟨rfl,
    (C3_deepMerge_amended
      [("a", JVal.num 1), ("b", JVal.num 2),
       ("c", JVal.obj [("x", JVal.num 1), ("y", JVal.num 2)])]
      [("a", JVal.num 9), ("c", JVal.obj [("y", JVal.num 7)])]).2.1 "b" rfl⟩,
   (C3_deepMerge_amended
      [("a", JVal.num 1), ("b", JVal.num 2),
       ("c", JVal.obj [("x", JVal.num 1), ("y", JVal.num 2)])]
      [("a", JVal.num 9), ("c", JVal.obj [("y", JVal.num 7)])]).2.2.2 "c" "x"
     [("x", JVal.num 1), ("y", JVal.num 2)] [("y", JVal.num 7)]
     (by simp) rfl rfl rfl⟩

/-- Claim C4, counterexample: a stored grid-settings object that lacks
`dataRange` is returned by `getGridSettings` exactly as stored — the
default `dataRange: 'ALL'` is not filled in, although a deep merge with the
fallback defaults would contain it.  So the grid-settings get is not
"defaults deep-merged with the stored value". -/
theorem C4_counterexample :
    getGridSettings (some (JVal.obj [("showFreqBadge", JVal.bool false)])) =
      JVal.obj [("showFreqBadge", JVal.bool false)] ∧
    lookupKey [("showFreqBadge", JVal.bool false)] "dataRange" = none ∧
    lookupKey gridFallback "dataRange" = some (JVal.str "ALL") ∧
    deepMerge gridFallback (JVal.obj [("showFreqBadge", JVal.bool false)]) =
      [("dataRange", JVal.str "ALL"), ("showFreqBadge", JVal.bool false)] := by
  refine ⟨rfl, rfl, rfl, ?_⟩
  simp [deepMerge, jsFalsy, sourceKeys, mergeKV, setKey, lookupKey, gridFallback]

/-- Claim C4, amended: the table-settings get returns the defaults
deep-merged with the stored value (a copy of the defaults when nothing
valid is stored), and every default key is present in its result; the
grid-settings get instead returns any truthy stored value as is, falling
back to the `\x7bdataRange: 'ALL'\x7d` shape only when nothing valid is
stored. -/
theorem C4_table_merged_grid_raw :
    ∀ (parsed : Option JVal),
      getTableSettings none = JVal.obj TABLE_DEFAULTS ∧
      (∀ v, jsFalsy v = false →
        getTableSettings (some v) = JVal.obj (deepMerge TABLE_DEFAULTS v)) ∧
      (∀ k, (lookupKey TABLE_DEFAULTS k).isSome →
        ∃ kvs, getTableSettings parsed = JVal.obj kvs ∧ (lookupKey kvs k).isSome) ∧
      (∀ v, jsFalsy v = false → getGridSettings (some v) = v) := by
  intro parsed
  refine ⟨rfl, ?_, ?_, ?_⟩
  · intro v hv
    simp [getTableSettings, hv]
  · intro k hk
    match parsed with
    | none => exact ⟨TABLE_DEFAULTS, rfl, hk⟩
    | some v =>
        by_cases hv : jsFalsy v = true
        · exact ⟨TABLE_DEFAULTS, by simp [getTableSettings, hv], hk⟩
        · rw [Bool.not_eq_true] at hv
          refine ⟨deepMerge TABLE_DEFAULTS v, by simp [getTableSettings, hv], ?_⟩
          unfold deepMerge
          rw [hv]
          simp only [Bool.false_eq_true, if_false]
          exact lookupKey_mergeKV_isSome (sourceKeys v) TABLE_DEFAULTS k hk
  · intro v hv
    simp [getGridSettings, hv]

/-- Claim C4, witness: a stored table-settings object containing only
`panelOpen` still yields every default key (here `dataRange`), and a
stored grid-settings object is returned as is. -/
theorem C4_witness :
    jsFalsy (JVal.obj [("panelOpen", JVal.bool true)]) = false ∧
    (lookupKey TABLE_DEFAULTS "dataRange").isSome = true ∧
    (∃ kvs,
      getTableSettings (some (JVal.obj [("panelOpen", JVal.bool true)])) =
        JVal.obj kvs ∧ (lookupKey kvs "dataRange").isSome) ∧
    getGridSettings (some (JVal.obj [("panelOpen", JVal.bool true)])) =
      JVal.obj [("panelOpen", JVal.bool true)] :=
  ⟨rfl, rfl,
   (C4_table_merged_grid_raw (some (JVal.obj [("panelOpen", JVal.bool true)]))).2.2.1
     "dataRange" rfl,
   (C4_table_merged_grid_raw (some (JVal.obj [("panelOpen", JVal.bool true)]))).2.2.2
     (JVal.obj [("panelOpen", JVal.bool true)]) rfl⟩

/-- Claim C5, counterexample: two input strings that are not valid 6-digit
hex colours (with or without a leading `'#'`) and are nevertheless not
returned unchanged.  The empty string hits the `!hex` guard and returns
null; the string with an embedded hash, `ff#0000`, becomes valid once
`replace('#', '')` removes that first hash, so the code appends an alpha
byte instead of returning the input. -/
theorem C5_counterexample :
    (hexWithAlpha (some "") (f64OfNat 50) = none ∧
      hexWithAlpha (some "") (f64OfNat 50) ≠ some "") ∧
    (hexWithAlpha (some "ff#0000") (f64OfNat 50) = some "#ff00007f" ∧
      hexWithAlpha (some "ff#0000") (f64OfNat 50) ≠ some "ff#0000") := by
  refine ⟨⟨by decide, by decide⟩, ⟨by decide, by decide⟩⟩

/-- Claim C5, amended: `hexWithAlpha('#ff0000', 50)` is `'#ff00007f'`
(the binary64 product `50 * 2.55` is just below 127.5, so `Math.round`
gives 127), and every non-empty input string that still fails the 6-hex
test after removing the first `'#'` and trimming is returned unchanged;
the empty string yields null. -/
theorem C5_hexWithAlpha_spec :
    hexWithAlpha (some "#ff0000") (f64OfNat 50) = some "#ff00007f" ∧
    ∀ (s : String) (alpha : F64), s ≠ "" →
      isHex6 (jsTrim (jsReplaceFirstHash s)) = false →
      hexWithAlpha (some s) alpha = some s := by
  refine ⟨by decide, ?_⟩
  intro s alpha h1 h2
  simp [hexWithAlpha, h1, h2]

/-- Claim C5, witness: the invalid colour name `red` is returned
unchanged. -/
theorem C5_witness :
    ("red" : String) ≠ "" ∧
    isHex6 (jsTrim (jsReplaceFirstHash "red")) = false ∧
    hexWithAlpha (some "red") (f64OfNat 50) = some "red" :=
  ⟨by decide, by decide,
   C5_hexWithAlpha_spec.2 "red" (f64OfNat 50) (by decide) (by decide)⟩

/-- Claim C6, counterexample: a series whose first price is 0 makes
`basePrice` 0, so the first percent value is `0 / 0`, which is `NaN`
(modelled `none`), not 0. -/
theorem C6_counterexample :
    percentSeries [0] = [none] ∧ (none : Option ℚ) ≠ some 0 := by
  constructor
  · simp [percentSeries, jsDivFin]
  · simp

/-- Claim C6, amended: for every non-empty filtered price series whose
first price is nonzero, the percent-change series has first element 0. -/
theorem C6_percent_first_zero (prices : List ℚ)
    (hne : prices ≠ []) (hbase : prices.headD 1 ≠ 0) :
    (percentSeries prices).head? = some (some 0) := by
  cases prices with
  | nil => exact absurd rfl hne
  | cons p rest =>
      simp only [List.headD_cons] at hbase
      simp [percentSeries, jsDivFin, hbase]

/-- Claim C6, witness: the series 50, 75 starts at 0 percent. -/
theorem C6_witness :
    ([50, 75] : List ℚ) ≠ [] ∧ ([50, 75] : List ℚ).headD 1 ≠ 0 ∧
    (percentSeries [50, 75]).head? = some (some 0) :=
  ⟨by simp, by norm_num,
   C6_percent_first_zero [50, 75] (by simp) (by norm_num)⟩

/-- Claim C7, counterexample: when storage is available but `setItem`
throws (quota), the set falls back to the in-memory store, yet the get
still reads browser storage and returns null — it does not fall back to
the memory mapping as the claim asserts for this failure mode. -/
theorem C7_counterexample :
    (Storage.mk true true [] []).lsAvailable = true ∧
    (Storage.mk true true [] []).setThrows = true ∧
    lookupKey (lsSetItem (Storage.mk true true [] []) "k" "v").mem "k" = some "v" ∧
    lsGetItem (lsSetItem (Storage.mk true true [] []) "k" "v") "k" = none := by
  refine ⟨rfl, rfl, by decide, by decide⟩

/-- Claim C7, amended: whenever storage is unavailable or its set throws,
the raw set fails but the wrapper writes the in-memory mapping and returns
normally (no exception escapes, the wrappers are total functions); when
the storage itself is unavailable the get reads the memory mapping, so a
set followed by a get round-trips through memory. -/
theorem C7_storage_fallback (st : Storage) (k v : String)
    (hfail : st.lsAvailable = false ∨ st.setThrows = true) :
    (lsSetItemRaw st k v).isOk = false ∧
    lookupKey (lsSetItem st k v).mem k = some v ∧
    (st.lsAvailable = false → lsGetItem (lsSetItem st k v) k = some v) ∧
    (st.lsAvailable = false → ∀ k2, lsGetItem st k2 = lookupKey st.mem k2) := by
  rcases hfail with h | h
  · refine ⟨?_, ?_, ?_, ?_⟩ <;>
      simp [lsSetItemRaw, lsSetItem, lsGetItem, lsGetItemRaw, h, lookupKey_setKey,
        Except.isOk, Except.toBool]
  · by_cases h2 : st.lsAvailable = false
    · refine ⟨?_, ?_, ?_, ?_⟩ <;>
        simp [lsSetItemRaw, lsSetItem, lsGetItem, lsGetItemRaw, h, h2, lookupKey_setKey,
          Except.isOk, Except.toBool]
    · simp only [Bool.not_eq_false] at h2
      refine ⟨?_, ?_, ?_, ?_⟩ <;>
        simp [lsSetItemRaw, lsSetItem, lsGetItem, lsGetItemRaw, h, h2, lookupKey_setKey,
          Except.isOk, Except.toBool]

/-- Claim C7, witness: with storage unavailable, a set stores to memory and
the get reads it back. -/
theorem C7_witness :
    ((Storage.mk false false [] []).lsAvailable = false ∨
      (Storage.mk false false [] []).setThrows = true) ∧
    ((lsSetItemRaw (Storage.mk false false [] []) "k" "v").isOk = false ∧
      lookupKey (lsSetItem (Storage.mk false false [] []) "k" "v").mem "k" = some "v" ∧
      ((Storage.mk false false [] []).lsAvailable = false →
        lsGetItem (lsSetItem (Storage.mk false false [] []) "k" "v") "k" = some "v") ∧
      ((Storage.mk false false [] []).lsAvailable = false →
        ∀ k2, lsGetItem (Storage.mk false false [] []) k2 =
          lookupKey (Storage.mk false false [] []).mem k2)) :=
  ⟨Or.inl rfl, C7_storage_fallback (Storage.mk false false [] []) "k" "v" (Or.inl rfl)⟩

/-- Claim C8: the grid card renderer renders exactly the records that are
non-null with a truthy id and a non-null price, in order; it warns exactly
about the skipped records and only in dev mode; and a malformed record
never aborts the remaining records — the rendered list is the filter of
the whole input, whatever malformed records appear before or between. -/
theorem C8_updateCards_characterisation :
    ∀ (devMode : Bool) (cs : List (Option Commodity)),
      updateCards devMode cs =
        (renderedCards cs, if devMode then cs.filter isMalformedRecord else []) := by
  intro devMode cs
  induction cs with
  | nil => cases devMode <;> simp [updateCards, renderedCards]
  | cons c rest ih =>
      cases c with
      | none =>
          cases devMode <;>
            simp_all [updateCards, renderedCards, isMalformedRecord, List.filterMap_cons]
      | some cc =>
          by_cases h : (idFalsy cc.id || cc.price.isNone) = true
          · cases devMode <;>
              simp_all [updateCards, renderedCards, isMalformedRecord, List.filterMap_cons]
          · cases devMode <;>
              simp_all [updateCards, renderedCards, isMalformedRecord, List.filterMap_cons]

/-- Claim C9: evaluating `calculateMA` on all-finite data `[1, 2, 3]` with
period 2.  The mean of the window `[2, 3]` at index 2 should be 2.5, but
the code returns null there: the sliding branch decrements `validCount`
only when the outgoing entry is non-numeric, so for numeric data
`validCount` grows past `period` and every output after index
`period - 1` is null — contradicting the function's own documentation
that only non-numeric windows produce null. -/
theorem C9_calculateMA_failing_input :
    calculateMA [some 1, some 2, some 3] 2 = [none, some (3 / 2), none] := by
  simp [calculateMA, List.range_succ]
  norm_num

/-- Claim C10: for a non-empty ascending series and an unrecognised range
token, the `switch` falls through and leaves the cutoff at the latest data
date, so the function returns exactly the elements dated at or after the
last element — not the whole series and not an error. -/
theorem C10_unknown_token (S : List PricePoint) (R : String)
    (_hsorted : sortedByDate S)
    (hR : R ∉ (["1W", "1M", "3M", "6M", "1Y", "ALL"] : List String))
    (lastPt : PricePoint) (hlast : S.getLast? = some lastPt) :
    filterDataByRangeList S R =
      S.filter (fun it => toSerial lastPt.date ≤ toSerial it.date) := by
  simp only [List.mem_cons, List.not_mem_nil, or_false, not_or] at hR
  obtain ⟨h1, h2, h3, h4, h5, h6⟩ := hR
  have hne : S ≠ [] := by
    intro h
    rw [h] at hlast
    simp at hlast
  have hc : rangeCutoff lastPt.date R = toSerial lastPt.date := by
    unfold rangeCutoff
    rw [if_neg h1, if_neg h2, if_neg h3, if_neg h4, if_neg h5]
  unfold filterDataByRangeList
  rw [if_neg (by simp [h6, hne]), hlast]
  simp only [hc]

/-- Claim C10, witness: the token `2Y` on a concrete two-point series. -/
theorem C10_witness :
    sortedByDate [⟨⟨2024, 0, 1⟩, 10⟩, ⟨⟨2024, 1, 1⟩, 11⟩] ∧
    filterDataByRangeList [⟨⟨2024, 0, 1⟩, 10⟩, ⟨⟨2024, 1, 1⟩, 11⟩] "2Y" =
      List.filter (fun it => toSerial ⟨2024, 1, 1⟩ ≤ toSerial it.date)
        [⟨⟨2024, 0, 1⟩, 10⟩, ⟨⟨2024, 1, 1⟩, 11⟩] :=
  ⟨by unfold sortedByDate; simp only [List.chain'_cons, List.chain'_singleton, and_true]; decide,
   C10_unknown_token [⟨⟨2024, 0, 1⟩, 10⟩, ⟨⟨2024, 1, 1⟩, 11⟩] "2Y"
     (by unfold sortedByDate; simp only [List.chain'_cons, List.chain'_singleton, and_true]; decide)
     (by decide) ⟨⟨2024, 1, 1⟩, 11⟩ (by decide)⟩
